import Mathlib

/-!
Verification of the cluefs directory layer (dir.go).

The Go code is shallowly embedded over lists of characters.  External
effects (syscall outcomes of lstat, mkdir, remove, open, symlink,
readdirnames, and the handle close) are passed to each operation as
explicit parameters, so that every operation is a pure function of its
inputs and of the reported outcome of the backing filesystem.  A Go
panic (an unchecked type assertion failing) is modelled as the
Except.error case of an outer Except Unit layer.
-/

namespace Cluefs

/-- Paths and names are modelled as lists of characters (Go strings,
byte-for-byte for the ASCII paths at issue). -/
abbrev Str := List Char

/-! ## Go standard library primitives used by dir.go -/

/-- Component splitter on the slash character, as used to model
path/filepath.Clean: splits a string on every occurrence of the
separator, keeping empty components. -/
def splitSlash (s : Str) : List Str :=
  s.foldr (fun c acc =>
    if c = '/' then [] :: acc
    else
      match acc with
      | [] => [[c]]
      | g :: gs => (c :: g) :: gs) [[]]

/-- The two-dot path component. -/
def dotdotC : Str := ['.', '.']

/-- One step of the lexical stack processing of filepath.Clean: a
two-dot component pops the previous component (for rooted paths a
two-dot at the top is dropped; for relative paths leading two-dot
components accumulate); any other component is pushed.  The stack holds
the output components in reverse order. -/
def cleanStep (rooted : Bool) (st : List Str) (c : Str) : List Str :=
  if c = dotdotC then
    match st with
    | [] => if rooted then [] else [c]
    | top :: rest => if rooted = false ∧ top = dotdotC then c :: top :: rest else rest
  else c :: st

/-- Model of Go path/filepath.IsAbs on unix: the path starts with a
slash. -/
def goIsAbs (p : Str) : Bool :=
  decide (p.head? = some '/')

/-- Model of Go path/filepath.Clean on unix: shortest lexically
equivalent path, processing empty, single-dot and double-dot components;
the empty path cleans to a single dot. -/
def cleanL (p : Str) : Str :=
  if p = [] then ['.']
  else
    let rooted := goIsAbs p
    let comps := (splitSlash p).filter (fun c => decide (¬(c = [] ∨ c = ['.'])))
    let stack := comps.foldl (cleanStep rooted) []
    let body := List.intercalate ['/'] stack.reverse
    if rooted then '/' :: body
    else if stack = [] then ['.']
    else body

/-- Model of Go path/filepath.Join restricted to two elements: empty
elements are dropped, the rest are joined with a slash and the result is
cleaned; joining two empty strings gives the empty string. -/
def goJoin (a b : Str) : Str :=
  if a = [] ∧ b = [] then []
  else if a = [] then cleanL b
  else if b = [] then cleanL a
  else cleanL (a ++ '/' :: b)

/-- Model of Go strings.Replace(s, old, new, 1): the leftmost occurrence
of old in s is replaced by new; if old does not occur, s is returned
unchanged (an empty old matches at the start). -/
def replaceOnceL (s old new : Str) : Str :=
  if old.isPrefixOf s then new ++ s.drop old.length
  else
    match s with
    | [] => []
    | c :: rest => c :: replaceOnceL rest old new

/-! ## Error model (dir.go lines 196-211) -/

/-- Shapes a Go error value can take when presented to
osErrorToFuseError: a pointer to os.PathError wrapping an inner error, a
pointer to os.LinkError wrapping an inner error, a bare syscall.Errno
value, a pointer to a syscall.Errno, or any other dynamic type. -/
inductive GoErr where
  | pathError (inner : GoErr)
  | linkError (inner : GoErr)
  | errno (n : Nat)
  | errnoPtr (n : Nat)
  | other
deriving DecidableEq

/-- Errno constant: no such file or directory. -/
def ENOENT : Nat := 2
/-- Errno constant: input/output error. -/
def EIO : Nat := 5
/-- Errno constant: operation not supported. -/
def ENOTSUP : Nat := 95

/-- Errno selection of osErrorToFuseError (dir.go lines 202-209).  The
errno starts as EIO.  A *os.PathError or *os.LinkError has its inner
error unwrapped by the unchecked type assertion .(syscall.Errno), which
panics (Except.error) unless the inner error is a bare syscall.Errno
value.  The third branch tests the dynamic type *syscall.Errno and, when
that test succeeds, asserts the dynamic type syscall.Errno on the same
value, which necessarily panics; a bare syscall.Errno value fails the
pointer test and falls through to EIO. -/
def osErrorToErrno : GoErr → Except Unit Nat
  | .pathError (.errno n) => .ok n
  | .pathError _ => .error ()
  | .linkError (.errno n) => .ok n
  | .linkError _ => .error ()
  | .errnoPtr _ => .error ()
  | .errno _ => .ok EIO
  | .other => .ok EIO

/-- Model of osErrorToFuseError (dir.go lines 198-211): nil maps to nil,
any other error value goes through the errno selection; Except.error
marks a Go panic, Except.ok the returned fuse error (none for nil). -/
def osErrorToFuseError : Option GoErr → Except Unit (Option Nat)
  | none => .ok none
  | some e => (osErrorToErrno e).map some

/-- Inputs on which the errno selection of osErrorToFuseError panics: a
path-level or link-level failure whose inner error is not a bare
syscall.Errno value, or a pointer to a syscall.Errno. -/
def panicShape : GoErr → Bool
  | .pathError (.errno _) => false
  | .pathError _ => true
  | .linkError (.errno _) => false
  | .linkError _ => true
  | .errnoPtr _ => true
  | .errno _ => false
  | .other => false

/-- Lift of panicShape to the optional (possibly nil) input of
osErrorToFuseError. -/
def inputPanics : Option GoErr → Bool
  | none => false
  | some g => panicShape g

/-! ## Data model -/

/-- Filesystem context: the mount directory and the shadow (backing)
directory, as referenced through d.fs in dir.go. -/
structure ClueFS where
  mountDir : Str
  shadowDir : Str
deriving DecidableEq

/-- Modelled from the spec: the Handle type lives outside src/ (only its
methods isOpen, doOpen, doSync, doClose are called from dir.go).  Per
spec section 3 a Handle tracks the lifecycle states closed and open. -/
structure Handle where
  isOpen : Bool
deriving DecidableEq

/-- Directory node: Node fields (parent, name) plus the filesystem
context and the Handle, as in the Dir struct of dir.go. -/
structure Dir where
  parent : Str
  name : Str
  fs : ClueFS
  handle : Handle
deriving DecidableEq

/-- Modelled from the spec: NewNode is not in src/; per spec section 3 a
Node's path is always join(parentPath, name). -/
def Dir.path (d : Dir) : Str := goJoin d.parent d.name

/-- Promotion of the embedded Handle's isOpen to Dir, as Go promotes the
method d.isOpen(). -/
def Dir.isOpen (d : Dir) : Bool := d.handle.isOpen

/-- Model of NewDir (dir.go lines 47-52): fresh node with an empty
(closed) Handle. -/
def NewDir (parent name : Str) (fs : ClueFS) : Dir :=
  ⟨parent, name, fs, ⟨false⟩⟩

/-- File node, sibling of Dir (NewFile / NewOpenFile are called from
dir.go; the File fields mirror Dir). -/
structure File where
  parent : Str
  name : Str
  fs : ClueFS
  handle : Handle
deriving DecidableEq

/-- Modelled from the spec: NewFile is not in src/; fresh node with a
closed Handle, symmetric to NewDir. -/
def NewFile (parent name : Str) (fs : ClueFS) : File :=
  ⟨parent, name, fs, ⟨false⟩⟩

/-- Modelled from the spec: NewOpenFile is not in src/; per spec section
4.4 Create returns an already-open Handle, so the File it builds around
the freshly opened descriptor is in the open state. -/
def NewOpenFile (parent name : Str) (fs : ClueFS) : File :=
  ⟨parent, name, fs, ⟨true⟩⟩

/-- Subset of a stat result used by dir.go: the inode and whether the
mode denotes a directory. -/
structure Stat where
  inode : Nat
  isDir : Bool
deriving DecidableEq

/-- Kind of a directory entry. -/
inductive DirentKind where
  | dir
  | file
deriving DecidableEq

/-- Directory entry returned by ReadDirAll: inode, kind and name. -/
structure Dirent where
  inode : Nat
  kind : DirentKind
  name : Str
deriving DecidableEq

/-- Trace records, one constructor per operation of dir.go, carrying the
affected path(s). -/
inductive TraceRecord where
  | openOp (path : Str)
  | releaseOp (path : Str)
  | lookupOp (path : Str)
  | readDirOp (path : Str)
  | mkdirOp (path : Str)
  | removeOp (path : Str)
  | createOp (path : Str)
  | symlinkOp (newName target : Str)
deriving DecidableEq

/-- Side effects Release can perform on the backing resource. -/
inductive SideAction where
  | syncA
  | closeA
deriving DecidableEq

/-- Modelled from the spec: getFuseDirent is not in src/; per spec
section 3 a Dirent is derived from a stat of the child path at
enumeration time, carrying the advertised name.  The stat outcome is
supplied by the oracle st. -/
def getFuseDirent (st : Str → Stat) (path name : Str) : Dirent :=
  ⟨(st path).inode, if (st path).isDir then .dir else .file, name⟩

/-- Model of the darwin variant of skipDirEntry (dir.go lines 21-25):
suppress every name starting with dot-underscore. -/
def skipDirEntryDarwin (n : Str) : Bool :=
  List.isPrefixOf ['.', '_'] n

/-- Model of the default variant of skipDirEntry (dir.go lines 26-29):
suppress nothing. -/
def skipDirEntryDefault (n : Str) : Bool :=
  match n with
  | _ => false

/-! ## Operations of dir.go -/

/-- Model of Dir.Open (dir.go lines 54-65).  The doOpen outcome on the
backing directory is the oracle parameter doOpenErr.  The trace record
is set up by defer on entry, hence emitted on success and failure alike.
On success a fresh Dir with the same parent and name and an open handle
is returned; on failure the raw error is returned untranslated. -/
def Dir.Open (d : Dir) (flags perm : Nat) (doOpenErr : Option GoErr) :
    Except GoErr Dir × List TraceRecord :=
  (match doOpenErr with
    | some e => .error e
    | none => .ok ⟨d.parent, d.name, d.fs, ⟨true⟩⟩,
   [.openOp d.path])

/-- Output of Release: the returned error, the directory state after the
call, the trace records emitted and the side actions performed on the
backing resource. -/
structure ReleaseOut where
  err : Option GoErr
  dir : Dir
  traces : List TraceRecord
  actions : List SideAction
deriving DecidableEq

/-- Model of Dir.Release (dir.go lines 67-76).  A closed handle returns
success immediately: no trace, no sync, no close, no state change.
Otherwise the trace is emitted, a sync is performed when the release
flags request a flush, and the handle is closed exactly once; the
doClose outcome closeErr is surfaced as the result.  The open-to-closed
transition of doClose is modelled from the spec (sections 3 and 4.2), as
Handle's methods are not in src/. -/
def Dir.Release (d : Dir) (flushRequested : Bool) (closeErr : Option GoErr) :
    ReleaseOut :=
  if d.isOpen = false then ⟨none, d, [], []⟩
  else
    ⟨closeErr, ⟨d.parent, d.name, d.fs, ⟨false⟩⟩, [.releaseOp d.path],
     (if flushRequested then [SideAction.syncA] else []) ++ [SideAction.closeA]⟩

/-- Result data of a successful Lookup: the inode published in the
response attributes and the directory classification of the mode. -/
structure LookupOut where
  inode : Nat
  isDir : Bool
deriving DecidableEq

/-- Model of Dir.Lookup (dir.go lines 78-97).  A suppressed name returns
ENOENT before the trace defer is installed, so no record is emitted for
it.  Otherwise the child path is joined, the trace defer is installed,
and the lstat outcome (oracle parameter, errors carry their errno cause)
decides: any failure, whatever its cause, becomes ENOENT; success
produces the stat-derived response. -/
def Dir.Lookup (skipDE : Str → Bool) (d : Dir) (reqName : Str)
    (lstat : Str → Except Nat Stat) :
    Except Nat LookupOut × List TraceRecord :=
  if skipDE reqName then (.error ENOENT, [])
  else
    let path := goJoin d.path reqName
    match lstat path with
    | .error _ => (.error ENOENT, [.lookupOp path])
    | .ok stt => (.ok ⟨stt.inode, stt.isDir⟩, [.lookupOp path])

/-- Model of Dir.ReadDirAll (dir.go lines 99-127).  A handle that is not
open fails with ENOTSUP before the trace defer is installed.  Otherwise
the trace is emitted and the readdirnames outcome (oracle parameter)
decides: failure becomes EIO; success filters suppressed names, builds a
Dirent per survivor in enumeration order, then appends the dot entry
built from the directory's own path and the dot-dot entry built from the
parent path, except that with an empty parent the dot entry is copied
and only its name changed to dot-dot. -/
def Dir.ReadDirAll (skipDE : Str → Bool) (st : Str → Stat) (d : Dir)
    (readdirnames : Except GoErr (List Str)) :
    Except Nat (List Dirent) × List TraceRecord :=
  if d.isOpen = false then (.error ENOTSUP, [])
  else
    match readdirnames with
    | .error _ => (.error EIO, [.readDirOp d.path])
    | .ok names =>
      let result := (names.filter (fun n => !(skipDE n))).map
        (fun n => getFuseDirent st (goJoin d.path n) n)
      let dot := getFuseDirent st d.path ['.']
      let dd : Dirent :=
        if 0 < d.parent.length then getFuseDirent st d.parent ['.', '.']
        else ⟨dot.inode, dot.kind, ['.', '.']⟩
      (.ok (result ++ [dot, dd]), [.readDirOp d.path])

/-- Model of Dir.Mkdir (dir.go lines 129-136).  The os.Mkdir outcome is
the oracle parameter; its error is translated through the errno
selection (outer Except.error marks the translator panicking).  The
trace defer precedes the backing call, so the record is emitted on every
outcome. -/
def Dir.Mkdir (d : Dir) (reqName : Str) (mode : Nat) (mkdirErr : Option GoErr) :
    Except Unit (Except Nat Dir) × List TraceRecord :=
  let path := goJoin d.path reqName
  (match mkdirErr with
    | some e => (osErrorToErrno e).map (fun n => Except.error n)
    | none => .ok (.ok (NewDir d.path reqName d.fs)),
   [.mkdirOp path])

/-- Model of Dir.Remove (dir.go lines 138-145), analogous to Mkdir: on
success the returned error is nil (none). -/
def Dir.Remove (d : Dir) (reqName : Str) (removeErr : Option GoErr) :
    Except Unit (Option Nat) × List TraceRecord :=
  let path := goJoin d.path reqName
  (match removeErr with
    | some e => (osErrorToErrno e).map some
    | none => .ok none,
   [.removeOp path])

/-- Model of Dir.Create (dir.go lines 147-156).  The os.OpenFile outcome
is the oracle parameter; on success a File around the freshly opened
descriptor is returned as both node and handle. -/
def Dir.Create (d : Dir) (reqName : Str) (flags mode : Nat)
    (openFileErr : Option GoErr) :
    Except Unit (Except Nat File) × List TraceRecord :=
  let path := goJoin d.path reqName
  (match openFileErr with
    | some e => (osErrorToErrno e).map (fun n => Except.error n)
    | none => .ok (.ok (NewOpenFile d.path reqName d.fs)),
   [.createOp path])

/-- Absolutized symlink target of Dir.Symlink (dir.go lines 170-174): a
relative target is joined with the creating directory's path, an
absolute target is kept as is. -/
def symlinkAbsTarget (dpath target : Str) : Str :=
  if goIsAbs target then target else goJoin dpath target

/-- Persisted link target of Dir.Symlink (dir.go lines 170-178): when
the absolutized target has the mount directory as a string prefix, the
first occurrence of the mount directory in it is replaced by the shadow
directory and that value is persisted; otherwise the original request
target is persisted unchanged. -/
def symlinkLinkTarget (fs : ClueFS) (dpath target : Str) : Str :=
  let absT := symlinkAbsTarget dpath target
  if fs.mountDir.isPrefixOf absT then replaceOnceL absT fs.mountDir fs.shadowDir
  else target

/-- Output of Symlink: the result (outer Except.error marks the error
translator panicking; the inner Bool records whether the returned node
was classified as a directory), the link location, the persisted link
target handed to os.Symlink, and the trace records. -/
structure SymlinkOut where
  res : Except Unit (Except Nat Bool)
  linkFrom : Str
  linkTo : Str
  traces : List TraceRecord

/-- Model of Dir.Symlink (dir.go lines 158-194).  The trace defer is
installed on entry, so the record is emitted on every outcome.  The
persisted target is symlinkLinkTarget; the lstat outcome on the
absolutized target (oracle parameter) only classifies the returned node
type; the os.Symlink outcome (oracle parameter) is translated through
the errno selection. -/
def Dir.Symlink (d : Dir) (newName target : Str) (lstatTarget : Option Stat)
    (symlinkErr : Option GoErr) : SymlinkOut :=
  let absNewName := goJoin d.path newName
  let linkTarget := symlinkLinkTarget d.fs d.path target
  let targetIsDir :=
    match lstatTarget with
    | some stt => stt.isDir
    | none => false
  ⟨(match symlinkErr with
     | some e => (osErrorToErrno e).map (fun n => Except.error n)
     | none => .ok (.ok targetIsDir)),
   absNewName, linkTarget, [.symlinkOp absNewName target]⟩

/-! ## Spec-side definitions and sample values -/

/-- Formalization of the spec wording, for comparison with the code: a
path falls under a root when it equals the root or extends it past a
path separator (it denotes the root itself or an entry inside the
subtree rooted there). -/
def specFallsUnder (p root : Str) : Prop :=
  p = root ∨ (root ++ ['/']) <+: p

instance (p root : Str) : Decidable (specFallsUnder p root) :=
  inferInstanceAs (Decidable (p = root ∨ (root ++ ['/']) <+: p))

/-- Sample filesystem context used by concrete witnesses, matching the
spec's example: mount root /mnt/x, shadow root /data/x. -/
def egFS : ClueFS := ⟨("/mnt/x".toList), ("/data/x".toList)⟩

/-- Sample root directory (empty parent path) whose handle is closed. -/
def egClosedDir : Dir := NewDir ([]) (("/data/x").toList) egFS

/-- Sample root directory (empty parent path) whose handle is open. -/
def egOpenDir : Dir := ⟨[], ("/data/x").toList, egFS, ⟨true⟩⟩

/-- Sample stat oracle: every path stats to inode 7, not a directory. -/
def egStat : Str → Stat := fun _ => ⟨7, false⟩

/-- Sample lstat oracle whose every outcome is a permission-denied
failure (errno 13). -/
def egLstatFail : Str → Except Nat Stat := fun _ => .error 13

/-! ## Helper lemmas -/

/-- Replacing the first occurrence when the pattern is a prefix of the
subject substitutes the replacement for the leading pattern. -/
theorem replaceOnceL_of_isPrefixOf {s old : Str} (new : Str)
    (h : old.isPrefixOf s = true) :
    replaceOnceL s old new = new ++ s.drop old.length := by
  unfold replaceOnceL
  rw [if_pos h]

/-- A path that falls under a root (in the path-component sense) in
particular has the root as a string prefix. -/
theorem isPrefixOf_of_specFallsUnder {p root : Str} (h : specFallsUnder p root) :
    root.isPrefixOf p = true := by
  rw [List.isPrefixOf_iff_prefix]
  rcases h with h | h
  · subst h; exact List.prefix_refl p
  · exact (List.prefix_append root ['/']).trans h

/-- Unfolding of ReadDirAll on an open handle with a successful
enumeration. -/
theorem readDirAll_ok (skipDE : Str → Bool) (st : Str → Stat) (d : Dir)
    (names : List Str) (hopen : d.isOpen = true) :
    Dir.ReadDirAll skipDE st d (.ok names)
      = (.ok (((names.filter (fun n => !(skipDE n))).map
            (fun n => getFuseDirent st (goJoin d.path n) n))
          ++ [getFuseDirent st d.path ['.'],
              if 0 < d.parent.length then getFuseDirent st d.parent ['.', '.']
              else ⟨(getFuseDirent st d.path ['.']).inode,
                    (getFuseDirent st d.path ['.']).kind, ['.', '.']⟩]),
         [.readDirOp d.path]) := by
  unfold Dir.ReadDirAll
  rw [if_neg (by simp [hopen])]

/-- Unfolding of ReadDirAll on a handle that is not open. -/
theorem readDirAll_closed_eq (skipDE : Str → Bool) (st : Str → Stat) (d : Dir)
    (rd : Except GoErr (List Str)) (h : d.isOpen = false) :
    Dir.ReadDirAll skipDE st d rd = (.error ENOTSUP, []) := by
  unfold Dir.ReadDirAll
  rw [if_pos h]

/-- Unfolding of Lookup on a suppressed name. -/
theorem lookup_skip_eq (skipDE : Str → Bool) (d : Dir) (reqName : Str)
    (lstat : Str → Except Nat Stat) (h : skipDE reqName = true) :
    Dir.Lookup skipDE d reqName lstat = (.error ENOENT, []) := by
  unfold Dir.Lookup
  rw [if_pos h]

/-- Unfolding of Lookup on an unsuppressed name whose lstat fails. -/
theorem lookup_lstat_error_eq (skipDE : Str → Bool) (d : Dir) (reqName : Str)
    (lstat : Str → Except Nat Stat) (ec : Nat) (hs : skipDE reqName = false)
    (hec : lstat (goJoin d.path reqName) = .error ec) :
    Dir.Lookup skipDE d reqName lstat
      = (.error ENOENT, [.lookupOp (goJoin d.path reqName)]) := by
  unfold Dir.Lookup
  rw [if_neg (by simp [hs])]
  simp only [hec]

/-- Unfolding of Lookup on an unsuppressed name whose lstat succeeds. -/
theorem lookup_lstat_ok_eq (skipDE : Str → Bool) (d : Dir) (reqName : Str)
    (lstat : Str → Except Nat Stat) (stt : Stat) (hs : skipDE reqName = false)
    (hok : lstat (goJoin d.path reqName) = .ok stt) :
    Dir.Lookup skipDE d reqName lstat
      = (.ok ⟨stt.inode, stt.isDir⟩, [.lookupOp (goJoin d.path reqName)]) := by
  unfold Dir.Lookup
  rw [if_neg (by simp [hs])]
  simp only [hok]

/-- Unfolding of Release on a closed handle. -/
theorem release_closed_eq (d : Dir) (fl : Bool) (e : Option GoErr)
    (h : d.isOpen = false) :
    Dir.Release d fl e = ⟨none, d, [], []⟩ := by
  unfold Dir.Release
  rw [if_pos h]

/-- Unfolding of Release on an open handle. -/
theorem release_open_eq (d : Dir) (fl : Bool) (e : Option GoErr)
    (h : d.isOpen = true) :
    Dir.Release d fl e
      = ⟨e, ⟨d.parent, d.name, d.fs, ⟨false⟩⟩, [.releaseOp d.path],
         (if fl then [SideAction.syncA] else []) ++ [SideAction.closeA]⟩ := by
  unfold Dir.Release
  rw [if_neg (by simp [h])]

/-! ## Claim theorems -/

/-- Claim C2 (counterexample): the error translator is not total and
crash-free: on a path-level failure wrapping an inner error that is not
a bare system error code, the unchecked type assertion of dir.go line
204 panics (modelled as Except.error). -/
theorem osErrorToFuseError_crashes_on_wrapped_nonerrno :
    osErrorToFuseError (some (GoErr.pathError GoErr.other)) = Except.error () :=
  rfl

/-- Claim C2 (amended): the error translator returns exactly one output
code without crashing precisely on the inputs that are not of a panic
shape; it panics exactly on a path-level or link-level failure wrapping
a non-errno inner error and on a pointer-to-errno input. -/
theorem osErrorToFuseError_total_characterization (e : Option GoErr) :
    (osErrorToFuseError e).isOk = !(inputPanics e) := by
  rcases e with _ | g
  · rfl
  · rcases g with inner | inner | n | n
    · rcases inner <;> rfl
    · rcases inner <;> rfl
    · rfl
    · rfl
    · rfl

/-- Claim C3 (code bug): a bare primitive system error code is not
unwrapped: the pointer-type test of dir.go line 207 never matches a bare
syscall.Errno value, so the bare code ENOENT is flattened to the generic
EIO; and a pointer to a syscall.Errno passes the test but then panics on
the value-type assertion of line 208. -/
theorem osErrorToFuseError_bare_errno_not_unwrapped :
    osErrorToFuseError (some (GoErr.errno ENOENT)) = Except.ok (some EIO)
    ∧ osErrorToFuseError (some (GoErr.errnoPtr ENOENT)) = Except.error ()
    ∧ EIO ≠ ENOENT :=
  ⟨rfl, rfl, by decide⟩

/-- Claim C4 (counterexample): the containment test is a raw string
prefix test, so the absolute target /mnt/xtra/f, which does not fall
under the mount root /mnt/x, is nevertheless rewritten to /data/xtra/f
instead of being persisted unchanged. -/
theorem symlinkLinkTarget_rewrites_outside_subtree :
    symlinkLinkTarget egFS ("/mnt/x/a".toList) ("/mnt/xtra/f".toList)
      = ("/data/xtra/f".toList)
    ∧ ¬ specFallsUnder ("/mnt/xtra/f".toList) ("/mnt/x".toList)
    ∧ ("/data/xtra/f".toList) ≠ ("/mnt/xtra/f".toList) :=
  ⟨by decide, by decide, by decide⟩

/-- Claim C4 (amended): a relative target is absolutized by joining it
with the creating directory's path; if the absolutized target falls
under the mount root it is rewritten to the corresponding path under the
shadow root and persisted; a target whose absolutized form does not have
the mount-root string as a prefix is persisted unchanged (the test being
a string-prefix test, some targets outside the mount subtree are also
rewritten). -/
theorem symlinkLinkTarget_containment (fs : ClueFS) (dpath target : Str) :
    (specFallsUnder (symlinkAbsTarget dpath target) fs.mountDir →
      symlinkLinkTarget fs dpath target
        = fs.shadowDir ++ (symlinkAbsTarget dpath target).drop fs.mountDir.length)
    ∧ (fs.mountDir.isPrefixOf (symlinkAbsTarget dpath target) = false →
      symlinkLinkTarget fs dpath target = target) := by
  constructor
  · intro h
    have hp := isPrefixOf_of_specFallsUnder h
    simp only [symlinkLinkTarget, hp, if_true]
    exact replaceOnceL_of_isPrefixOf _ hp
  · intro h
    simp only [symlinkLinkTarget, h]
    rfl

/-- Claim C4 (witness): with mount root /mnt/x and shadow root /data/x,
a symlink created in /mnt/x/a with target /mnt/x/b/file persists
/data/x/b/file, and a target /etc/passwd persists unchanged. -/
theorem symlinkLinkTarget_containment_witness :
    symlinkLinkTarget egFS ("/mnt/x/a".toList) ("/mnt/x/b/file".toList)
      = ("/data/x/b/file".toList)
    ∧ symlinkLinkTarget egFS ("/mnt/x/a".toList) ("/etc/passwd".toList)
      = ("/etc/passwd".toList) := by
  constructor
  · exact ((symlinkLinkTarget_containment egFS ("/mnt/x/a".toList)
      ("/mnt/x/b/file".toList)).1 (by decide)).trans (by decide)
  · exact (symlinkLinkTarget_containment egFS ("/mnt/x/a".toList)
      ("/etc/passwd".toList)).2 (by decide)

/-- Claim C10: whenever the absolutized target has the mount-root string
as a prefix (a raw string test, with no requirement that the target lie
in the mount subtree), the first occurrence of the mount-root string is
replaced by the shadow-root string and that value is the persisted link
target. -/
theorem symlinkLinkTarget_prefix_rewrite (fs : ClueFS) (dpath target : Str)
    (h : fs.mountDir.isPrefixOf (symlinkAbsTarget dpath target) = true) :
    symlinkLinkTarget fs dpath target
      = fs.shadowDir ++ (symlinkAbsTarget dpath target).drop fs.mountDir.length := by
  simp only [symlinkLinkTarget, h, if_true]
  exact replaceOnceL_of_isPrefixOf _ h

/-- Claim C10 (witness): the target /mnt/xtra/f, outside the subtree of
the mount root /mnt/x but sharing it as a string prefix, is rewritten to
/data/xtra/f. -/
theorem symlinkLinkTarget_prefix_rewrite_witness :
    (("/mnt/x".toList) : Str).isPrefixOf
        (symlinkAbsTarget ("/mnt/x/a".toList) ("/mnt/xtra/f".toList)) = true
    ∧ symlinkLinkTarget egFS ("/mnt/x/a".toList) ("/mnt/xtra/f".toList)
      = ("/data/xtra/f".toList) := by
  refine ⟨by decide, ?_⟩
  exact (symlinkLinkTarget_prefix_rewrite egFS ("/mnt/x/a".toList)
    ("/mnt/xtra/f".toList) (by decide)).trans (by decide)

/-- Claim C1 (counterexample): an invocation of Release on a directory
whose handle is already closed succeeds yet emits zero trace records
(and performs no side action), refuting "exactly one record per
invocation, never zero". -/
theorem release_closed_emits_no_trace :
    (Dir.Release egClosedDir true none).traces = []
    ∧ (Dir.Release egClosedDir true none).err = none
    ∧ (Dir.Release egClosedDir true none).actions = [] :=
  ⟨rfl, rfl, rfl⟩

/-- Claim C1 (amended): Open, Mkdir, Remove, Create and Symlink emit
exactly one trace record on every invocation, success or failure; the
three guarded operations emit exactly one record except on their early
exit paths, which emit none: Release on an already-closed handle,
ReadDirAll on a handle that is not open, and Lookup of a suppressed
name. -/
theorem trace_record_counts (skipDE : Str → Bool) (st : Str → Stat) (d : Dir)
    (reqName newName target : Str) (mode flags perm : Nat) (fl : Bool)
    (e1 e2 e3 e4 e5 e6 : Option GoErr) (ls : Option Stat)
    (lstat : Str → Except Nat Stat) (rd : Except GoErr (List Str)) :
    (Dir.Open d flags perm e1).2.length = 1
    ∧ (Dir.Mkdir d reqName mode e2).2.length = 1
    ∧ (Dir.Remove d reqName e3).2.length = 1
    ∧ (Dir.Create d reqName flags mode e4).2.length = 1
    ∧ (Dir.Symlink d newName target ls e5).traces.length = 1
    ∧ (Dir.Release d fl e6).traces.length = (if d.isOpen = true then 1 else 0)
    ∧ (Dir.ReadDirAll skipDE st d rd).2.length = (if d.isOpen = true then 1 else 0)
    ∧ (Dir.Lookup skipDE d reqName lstat).2.length
        = (if skipDE reqName = true then 0 else 1) := by
  refine ⟨rfl, rfl, rfl, rfl, rfl, ?_, ?_, ?_⟩
  · cases h : d.isOpen
    · rw [release_closed_eq d fl e6 h]
      simp [h]
    · rw [release_open_eq d fl e6 h]
      simp [h]
  · cases h : d.isOpen
    · rw [readDirAll_closed_eq skipDE st d rd h]
      simp [h]
    · cases rd with
      | error ge =>
        unfold Dir.ReadDirAll
        rw [if_neg (by simp [h])]
        simp [h]
      | ok names =>
        rw [readDirAll_ok skipDE st d names h]
        simp [h]
  · by_cases hs : skipDE reqName = true
    · simp [Dir.Lookup, hs]
    · cases hl : lstat (goJoin d.path reqName) <;>
        simp [Dir.Lookup, hs, hl]

/-- Claim C7: a Release on an already-closed Handle is a no-op that
returns success and performs no flush, no close and no trace emission;
every Release leaves the handle closed, so a second Release after any
first one is such a no-op (Release is idempotent on the directory
state). -/
theorem release_idempotent (d : Dir) (fl fl2 : Bool) (e e2 : Option GoErr) :
    (Dir.Release d fl e).dir.isOpen = false
    ∧ (d.isOpen = false → Dir.Release d fl e = ⟨none, d, [], []⟩)
    ∧ Dir.Release (Dir.Release d fl e).dir fl2 e2
        = ⟨none, (Dir.Release d fl e).dir, [], []⟩ := by
  cases h : d.isOpen with
  | false =>
    have h1 := release_closed_eq d fl e h
    refine ⟨?_, fun _ => h1, ?_⟩
    · rw [h1]; exact h
    · rw [h1]
      exact release_closed_eq d fl2 e2 h
  | true =>
    have h1 := release_open_eq d fl e h
    refine ⟨?_, ?_, ?_⟩
    · rw [h1]
      rfl
    · intro h2
      exact absurd h2 (by simp)
    · rw [h1]
      exact release_closed_eq ⟨d.parent, d.name, d.fs, ⟨false⟩⟩ fl2 e2 rfl

/-- Claim C7 (witness): releasing the sample closed directory is a no-op
returning success. -/
theorem release_idempotent_witness :
    Dir.Release egClosedDir true none = ⟨none, egClosedDir, [], []⟩ :=
  (release_idempotent egClosedDir true true none none).2.1 rfl

/-- Claim C8: ReadDirAll on a directory whose handle is not open fails
with ENOTSUP, emits no trace and returns the same result whatever the
outcome of the backing enumeration would have been (no enumeration is
performed). -/
theorem readDirAll_requires_open (skipDE : Str → Bool) (st : Str → Stat)
    (d : Dir) (rd : Except GoErr (List Str)) (h : d.isOpen = false) :
    Dir.ReadDirAll skipDE st d rd = (.error ENOTSUP, []) :=
  readDirAll_closed_eq skipDE st d rd h

/-- Claim C8 (witness): on the sample closed directory, ReadDirAll fails
with ENOTSUP even though the backing enumeration would have returned an
entry. -/
theorem readDirAll_requires_open_witness :
    Dir.ReadDirAll skipDirEntryDefault egStat egClosedDir (.ok [("a".toList)])
      = (.error ENOTSUP, []) :=
  readDirAll_requires_open skipDirEntryDefault egStat egClosedDir
    (.ok [("a".toList)]) rfl

/-- Claim C5: on an open directory with a successful enumeration whose
names (as the backing readdirnames guarantees) contain neither dot nor
dot-dot, the result is the backing entries with suppressed names
removed, in enumeration order, followed by exactly one dot entry and
then exactly one dot-dot entry; the two dot entries are the last two, in
that order, and no other entry carries either name. -/
theorem readDirAll_entries (skipDE : Str → Bool) (st : Str → Stat) (d : Dir)
    (names : List Str) (hopen : d.isOpen = true)
    (hdot : (['.'] : Str) ∉ names) (hdd : (['.', '.'] : Str) ∉ names) :
    ∃ front dotE ddE,
      (Dir.ReadDirAll skipDE st d (.ok names)).1 = .ok (front ++ [dotE, ddE])
      ∧ front = (names.filter (fun n => !(skipDE n))).map
          (fun n => getFuseDirent st (goJoin d.path n) n)
      ∧ dotE.name = ['.'] ∧ ddE.name = ['.', '.']
      ∧ ∀ e ∈ front, e.name ≠ ['.'] ∧ e.name ≠ ['.', '.'] := by
  refine ⟨(names.filter (fun n => !(skipDE n))).map
      (fun n => getFuseDirent st (goJoin d.path n) n),
    getFuseDirent st d.path ['.'],
    (if 0 < d.parent.length then getFuseDirent st d.parent ['.', '.']
     else ⟨(getFuseDirent st d.path ['.']).inode,
           (getFuseDirent st d.path ['.']).kind, ['.', '.']⟩),
    ?_, rfl, rfl, ?_, ?_⟩
  · rw [readDirAll_ok skipDE st d names hopen]
  · split <;> rfl
  · intro e he
    obtain ⟨n, hn, rfl⟩ := List.mem_map.mp he
    have hnames : n ∈ names := (List.mem_filter.mp hn).1
    constructor
    · intro hcon
      have hn2 : n = ['.'] := hcon
      exact hdot (hn2 ▸ hnames)
    · intro hcon
      have hn2 : n = ['.', '.'] := hcon
      exact hdd (hn2 ▸ hnames)

/-- Claim C5 (witness): instantiation on the open sample root directory
with backing entries a, dot-underscore-junk and b under the darwin name
filter. -/
theorem readDirAll_entries_witness :
    ∃ front dotE ddE,
      (Dir.ReadDirAll skipDirEntryDarwin egStat egOpenDir
          (.ok [("a".toList), ("._junk".toList), ("b".toList)])).1
        = .ok (front ++ [dotE, ddE])
      ∧ front = ([("a".toList), ("._junk".toList), ("b".toList)].filter
            (fun n => !(skipDirEntryDarwin n))).map
          (fun n => getFuseDirent egStat (goJoin egOpenDir.path n) n)
      ∧ dotE.name = ['.'] ∧ ddE.name = ['.', '.']
      ∧ ∀ e ∈ front, e.name ≠ ['.'] ∧ e.name ≠ ['.', '.'] :=
  readDirAll_entries skipDirEntryDarwin egStat egOpenDir
    [("a".toList), ("._junk".toList), ("b".toList)] rfl (by decide) (by decide)

/-- Claim C6: at the mount root (empty parent path) the dot-dot entry of
ReadDirAll is built from the same path as the dot entry, sharing its
path-derived fields (inode and kind), with advertised name dot-dot. -/
theorem readDirAll_root_dotdot (skipDE : Str → Bool) (st : Str → Stat)
    (d : Dir) (names : List Str) (hopen : d.isOpen = true)
    (hroot : d.parent = []) :
    ∃ front,
      (Dir.ReadDirAll skipDE st d (.ok names)).1
        = .ok (front ++ [getFuseDirent st d.path ['.'],
            ⟨(getFuseDirent st d.path ['.']).inode,
             (getFuseDirent st d.path ['.']).kind, ['.', '.']⟩]) := by
  refine ⟨(names.filter (fun n => !(skipDE n))).map
      (fun n => getFuseDirent st (goJoin d.path n) n), ?_⟩
  rw [readDirAll_ok skipDE st d names hopen]
  have hlen : ¬ (0 < d.parent.length) := by simp [hroot]
  rw [if_neg hlen]

/-- Claim C6 (witness): instantiation on the open sample root directory,
whose parent path is empty. -/
theorem readDirAll_root_dotdot_witness :
    ∃ front,
      (Dir.ReadDirAll skipDirEntryDefault egStat egOpenDir
          (.ok [("a".toList)])).1
        = .ok (front ++ [getFuseDirent egStat egOpenDir.path ['.'],
            ⟨(getFuseDirent egStat egOpenDir.path ['.']).inode,
             (getFuseDirent egStat egOpenDir.path ['.']).kind, ['.', '.']⟩]) :=
  readDirAll_root_dotdot skipDirEntryDefault egStat egOpenDir
    [("a".toList)] rfl rfl

/-- Claim C9: under a name filter that suppresses neither dot nor
dot-dot (both shipped variants are such), a suppressed name makes Lookup
return ENOENT with no trace and never appears among the names of a
ReadDirAll result; every lstat failure, whatever errno cause it carries,
makes Lookup return ENOENT; and ENOENT is the only error Lookup ever
returns. -/
theorem lookup_flattens (skipDE : Str → Bool) (st : Str → Stat) (d : Dir)
    (reqName : Str) (lstat : Str → Except Nat Stat) (names : List Str)
    (hdot : skipDE ['.'] = false) (hdd : skipDE ['.', '.'] = false) :
    (skipDE reqName = true →
        Dir.Lookup skipDE d reqName lstat = (.error ENOENT, [])
        ∧ ∀ es, (Dir.ReadDirAll skipDE st d (.ok names)).1 = .ok es →
            ∀ e ∈ es, e.name ≠ reqName)
    ∧ (∀ ec, lstat (goJoin d.path reqName) = .error ec →
        (Dir.Lookup skipDE d reqName lstat).1 = .error ENOENT)
    ∧ (∀ r, (Dir.Lookup skipDE d reqName lstat).1 = .error r → r = ENOENT) := by
  refine ⟨fun hskip => ⟨?_, ?_⟩, ?_, ?_⟩
  · unfold Dir.Lookup
    rw [if_pos hskip]
  · intro es hes e he hcon
    cases hopen : d.isOpen with
    | false =>
      rw [readDirAll_closed_eq skipDE st d (.ok names) hopen] at hes
      exact absurd hes (by simp)
    | true =>
      rw [readDirAll_ok skipDE st d names hopen] at hes
      have hes2 := Except.ok.inj hes
      subst hes2
      rcases List.mem_append.mp he with hf | hback
      · obtain ⟨n, hn, rfl⟩ := List.mem_map.mp hf
        have hfilt := (List.mem_filter.mp hn).2
        have hEq : n = reqName := hcon
        rw [hEq, hskip] at hfilt
        exact absurd hfilt (by decide)
      · rcases List.mem_cons.mp hback with hdotE | hrest
        · have hname : e.name = ['.'] := by rw [hdotE]; rfl
          have h2 : reqName = ['.'] := hcon.symm.trans hname
          rw [h2, hdot] at hskip
          exact absurd hskip (by decide)
        · have hEq : e = _ := List.mem_singleton.mp hrest
          have hname : e.name = ['.', '.'] := by
            rw [hEq]
            split <;> rfl
          have h2 : reqName = ['.', '.'] := hcon.symm.trans hname
          rw [h2, hdd] at hskip
          exact absurd hskip (by decide)
  · intro ec hec
    by_cases hs : skipDE reqName = true
    · rw [lookup_skip_eq skipDE d reqName lstat hs]
    · have hs2 : skipDE reqName = false := by simpa using hs
      rw [lookup_lstat_error_eq skipDE d reqName lstat ec hs2 hec]
  · intro r hr
    by_cases hs : skipDE reqName = true
    · rw [lookup_skip_eq skipDE d reqName lstat hs] at hr
      exact (Except.error.inj hr).symm
    · have hs2 : skipDE reqName = false := by simpa using hs
      cases hl : lstat (goJoin d.path reqName) with
      | error ec =>
        rw [lookup_lstat_error_eq skipDE d reqName lstat ec hs2 hl] at hr
        exact (Except.error.inj hr).symm
      | ok stt =>
        rw [lookup_lstat_ok_eq skipDE d reqName lstat stt hs2 hl] at hr
        exact absurd hr (by simp)

/-- Claim C9 (witness): under the darwin filter, looking up the
suppressed name dot-underscore-junk returns ENOENT with no trace, and
looking up an ordinary name whose lstat fails with permission denied
(errno 13) also returns ENOENT. -/
theorem lookup_flattens_witness :
    Dir.Lookup skipDirEntryDarwin egOpenDir ("._junk".toList) egLstatFail
      = (.error ENOENT, [])
    ∧ (Dir.Lookup skipDirEntryDarwin egOpenDir ("doc".toList) egLstatFail).1
      = .error ENOENT := by
  constructor
  · exact ((lookup_flattens skipDirEntryDarwin egStat egOpenDir
      ("._junk".toList) egLstatFail [] rfl rfl).1 rfl).1
  · exact (lookup_flattens skipDirEntryDarwin egStat egOpenDir
      ("doc".toList) egLstatFail [] rfl rfl).2.1 13 rfl

end Cluefs
